import Mathlib

/-!
Shallow embedding of the filter/derive/sort/paginate pipeline of
`src/app.py` (a Streamlit catalog over scraped job records), together with
theorems settling the specification's claims about it.

Conventions of the embedding:
* a pandas DataFrame of job rows is a `List Record`;
* Python `int(s)` on a string cell is `pyInt` (failure raises, so a
  column conversion `astype(int)` is a stage returning `Except`);
* `pd.to_datetime(x, errors=coerce)` on the observed "Month DD, YYYY" data
  is `parseDate`, returning `none` on malformed input;
* boolean-mask filtering `df[mask]` is `List.filter`; the search mask
  `Series.str.contains(term, case=False)` treats the term as a regular
  expression (pandas default `regex=True`), and is modelled here only for
  terms free of regex metacharacters (`regexFree`), on which the regex
  engine matches the term literally and cannot raise `re.error`;
* `df.sort_values` is modelled by an insertion sort on a boolean
  comparator; pandas places NaN/NaT keys last regardless of direction
  (`na_position` defaults to last), which the date comparator reproduces.
-/

namespace GCCC

/-- Boolean test that `p` is an initial segment of `l` (character lists). -/
def leadMatch : List Char → List Char → Bool
  | [], _ => true
  | _ :: _, [] => false
  | a :: as, b :: bs => a == b && leadMatch as bs

/-- Boolean substring test on character lists: `needle` occurs inside `hay`. -/
def hasSub (needle hay : List Char) : Bool :=
  match hay with
  | [] => needle.isEmpty
  | _ :: t => leadMatch needle hay || hasSub needle t

/-- Case-insensitive substring containment. It models
`Series.str.contains(needle, case=False)` only for a `needle` free of regex
metacharacters (see `regexFree`): pandas defaults to `regex=True`, and on a
metacharacter-free pattern the regex engine matches the pattern literally
(with `re.IGNORECASE` from `case=False`) and cannot raise `re.error`. -/
def containsCI (needle hay : String) : Bool :=
  hasSub (needle.toList.map Char.toLower) (hay.toList.map Char.toLower)

/-- The characters the Python `re` module treats specially; the final two
entries are the curly braces (code points 123 and 125). -/
def REGEX_METACHARS : List Char :=
  ['.', '^', '$', '*', '+', '?', '[', ']', '\\', '|', '(', ')',
   Char.ofNat 123, Char.ofNat 125]

/-- A search text containing no regex metacharacter. On such texts
`str.contains(text, case=False)` with its default `regex=True` degenerates
to literal case-insensitive substring containment (`containsCI`) and the
pattern cannot raise `re.error`; on other texts the program interprets the
search box as a regular expression and is outside this model. -/
def regexFree (s : String) : Bool :=
  s.toList.all (fun c => !(REGEX_METACHARS.contains c))

/-- Digit-string accumulator for `digitsToNat`. -/
def digitsAux : List Char → Nat → Option Nat
  | [], acc => some acc
  | c :: cs, acc =>
    if c.isDigit then digitsAux cs (acc * 10 + (c.toNat - 48)) else none

/-- Value of a non-empty all-digit character list. -/
def digitsToNat : List Char → Option Nat
  | [] => none
  | l => digitsAux l 0

/-- Model of Python `int(s)` (as invoked by `astype(int)`) on the observed
cell shapes: an optional minus sign followed by decimal digits parses, and
anything else (such as the `"<NA>"` marker or free text) raises — modelled
as `none`. -/
def pyInt (s : String) : Option Int :=
  match s.toList with
  | '-' :: rest => (digitsToNat rest).map (fun n => -(n : Int))
  | l => (digitsToNat l).map (fun n => (n : Int))

/-- Single-separator split of a character list, mirroring `str.split`. -/
def splitOnChar (sep : Char) : List Char → List (List Char)
  | [] => [[]]
  | c :: cs =>
    match splitOnChar sep cs with
    | [] => [[c]]
    | h :: t => if c == sep then [] :: h :: t else (c :: h) :: t

/-- Month names accepted by the date parser, in calendar order. -/
def MONTHS : List String :=
  ["January", "February", "March", "April", "May", "June",
   "July", "August", "September", "October", "November", "December"]

/-- Model of `pd.to_datetime(s, errors=coerce)` on the data's
"Month DD, YYYY" format: a successfully parsed date is encoded as the
natural number `year*10000 + month*100 + day` (an order-preserving encoding
of calendar dates), and any malformed string coerces to `none` (NaT). -/
def parseDate (s : String) : Option Nat :=
  match splitOnChar ' ' s.toList with
  | [mStr, dStr, yStr] =>
    match MONTHS.findIdx? (fun m => m.toList == mStr),
          (match dStr.getLast? with
           | some ch => if ch == ',' then digitsToNat dStr.dropLast else none
           | none => none),
          digitsToNat yStr with
    | some mi, some d, some y =>
      if 1 ≤ d && d ≤ 31 && 1000 ≤ y && y ≤ 9999 then
        some (y * 10000 + (mi + 1) * 100 + d)
      else none
    | _, _, _ => none
  | _ => none

/-- A date column cell: either still the raw scraped text, or a parsed
datetime (`none` = NaT) after the column has been overwritten by
`pd.to_datetime` (app.py lines 375-378 / 592-595). -/
inductive DateCell where
  | txt (s : String)
  | dt (d : Option Nat)
deriving DecidableEq, Repr

/-- Value of `pd.to_datetime(cell, errors=coerce)`: raw text is parsed,
an already-converted datetime cell is left as is. -/
def toDatetime : DateCell → Option Nat
  | .txt s => parseDate s
  | .dt d => d

/-- The derived `creation_year` column (app.py line 169):
`pd.to_datetime(creation_date, errors=coerce).dt.year.astype(Int64).astype(str)`.
A parsed date yields the year's decimal digits; NaT yields the pandas
missing-value marker, whose string form is `"<NA>"`. -/
def deriveYear (s : String) : String :=
  match parseDate s with
  | some code => toString (code / 10000)
  | none => "<NA>"

/-- One job row, with the columns the pipeline reads, plus the derived
`creation_year` column computed at load time. -/
structure Record where
  job_name : String
  job_creator : String
  job_type : String
  job_type_edited : String
  verification_type : String
  max_players : String
  creation_date : DateCell
  last_updated : DateCell
  job_description : Option String
  creation_year : String
deriving DecidableEq, Repr

/-- The filter state held in `st.session_state` plus the search box. -/
structure FilterState where
  selected_job_types : List String
  selected_verification_types : List String
  selected_year_range : Int × Int
  selected_player_filters : List String
  search_term : String
deriving DecidableEq, Repr

deriving instance DecidableEq for Except

/-- Inclusive integer interval test, modelling `Series.between(lo, hi)`. -/
def betweenInt (v lo hi : Int) : Bool :=
  lo ≤ v && v ≤ hi

/-- Job-type stage (app.py lines 309-310): when the selection is non-empty,
keep rows whose `job_type_edited` is in the selection. -/
def jobTypeStage (sel : List String) (l : List Record) : List Record :=
  if sel.isEmpty then l
  else l.filter (fun r => sel.contains r.job_type_edited)

/-- Verification stage (app.py lines 312-313). -/
def verificationStage (sel : List String) (l : List Record) : List Record :=
  if sel.isEmpty then l
  else l.filter (fun r => sel.contains r.verification_type)

/-- The per-row predicate of the year-range stage, for rows whose
`creation_year` converts to an integer. -/
def yearPred (range : Int × Int) (r : Record) : Bool :=
  match pyInt r.creation_year with
  | some v => betweenInt v range.1 range.2
  | none => false

/-- Year-range stage (app.py lines 316-317):
`filtered_df[filtered_df[creation_year].astype(int).between(year_min, year_max)]`.
The column conversion `astype(int)` raises a `ValueError` as soon as any
cell (such as the `"<NA>"` marker of an unparseable date) is not an integer
literal; otherwise the stage filters by the inclusive range. -/
def yearStage (range : Int × Int) (l : List Record) : Except String (List Record) :=
  if l.all (fun r => (pyInt r.creation_year).isSome) then
    .ok (l.filter (yearPred range))
  else
    .error "ValueError: invalid literal for int() with base 10"

/-- The filter of a numeric player bucket (`astype(int).between(lo, hi)`,
app.py lines 324/326): raises when any `max_players` cell fails integer
conversion, otherwise keeps rows whose value lies in the inclusive range. -/
def intRangeFilter (lo hi : Int) (l : List Record) : Except String (List Record) :=
  if l.all (fun r => (pyInt r.max_players).isSome) then
    .ok (l.filter (fun r =>
      match pyInt r.max_players with
      | some v => betweenInt v lo hi
      | none => false))
  else
    .error "ValueError: invalid literal for int() with base 10"

/-- Player-count stage (app.py lines 320-326): an `if`/`elif` chain, so only
the first selected bucket in the fixed order "30 players", "16-29 players",
"8-15 players" is applied; the "30 players" branch compares the raw string
to `"30"`, the other two convert the column to integers. -/
def playerStage (sel : List String) (l : List Record) : Except String (List Record) :=
  if sel.isEmpty then .ok l
  else if sel.contains "30 players" then
    .ok (l.filter (fun r => r.max_players == "30"))
  else if sel.contains "16-29 players" then
    intRangeFilter 16 29 l
  else if sel.contains "8-15 players" then
    intRangeFilter 8 15 l
  else .ok l

/-- The per-row search predicate (app.py lines 329-332): case-insensitive
containment in `job_name` or in `job_creator` (no other column is read);
faithful to the program for `regexFree` search terms. -/
def searchPred (term : String) (r : Record) : Bool :=
  containsCI term r.job_name || containsCI term r.job_creator

/-- Search stage (app.py lines 328-332): applied only when the search box
is non-empty. -/
def searchStage (term : String) (l : List Record) : List Record :=
  if term.isEmpty then l
  else l.filter (searchPred term)

/-- The tab-1 filter application (app.py lines 307-332), stages in source
order; tab 3 (lines 523-548) repeats the same code verbatim. -/
def applyFilters (F : FilterState) (l : List Record) : Except String (List Record) :=
  match yearStage F.selected_year_range
      (verificationStage F.selected_verification_types
        (jobTypeStage F.selected_job_types l)) with
  | .error e => .error e
  | .ok l3 =>
    match playerStage F.selected_player_filters l3 with
    | .error e => .error e
    | .ok l4 => .ok (searchStage F.search_term l4)

/-- Insertion of `a` into `l` before the first element `b` with `le a b`.
The sort built on it models `df.sort_values` up to the relative order of
equal keys, which pandas's default quicksort leaves unspecified. -/
def insertLe (le : α → α → Bool) (a : α) : List α → List α
  | [] => [a]
  | b :: bs => if le a b then a :: b :: bs else b :: insertLe le a bs

/-- Comparison sort used to model `df.sort_values` with comparator `le`. -/
def sortBy (le : α → α → Bool) : List α → List α
  | [] => []
  | a :: as => insertLe le a (sortBy le as)

/-- Comparator of `sort_values` on a text column through a string key
(either `str.lower` of the cell, app.py lines 366-372, or the raw cell in
the generic branch, lines 383-388). -/
def lexLe : List Char → List Char → Bool
  | [], _ => true
  | _ :: _, [] => false
  | a :: as, b :: bs =>
    if a.toNat < b.toNat then true
    else if b.toNat < a.toNat then false
    else lexLe as bs

def cmpStrKey (key : Record → List Char) (asc : Bool) (a b : Record) : Bool :=
  if asc then lexLe (key a) (key b) else lexLe (key b) (key a)

/-- Comparator of a date sort: pandas places NaT keys last for both
directions (`na_position` defaults to last); present keys compare by the
chosen direction. -/
def cmpDateKey (key : Record → Option Nat) (asc : Bool) (a b : Record) : Bool :=
  match key a, key b with
  | none, none => true
  | some _, none => true
  | none, some _ => false
  | some x, some y => if asc then decide (x ≤ y) else decide (y ≤ x)

/-- Column overwrite performed by the date sort (app.py lines 375-378):
`filtered_df[col] = pd.to_datetime(filtered_df[col], errors=coerce)` for
`col = creation_date`. -/
def overwriteCreationDate (r : Record) : Record :=
  { r with creation_date := .dt (toDatetime r.creation_date) }

/-- Same column overwrite for `col = last_updated`. -/
def overwriteLastUpdated (r : Record) : Record :=
  { r with last_updated := .dt (toDatetime r.last_updated) }

/-- The six recognized sort columns (app.py line 342). -/
inductive SortCol where
  | job_name
  | job_creator
  | job_type_edited
  | creation_date
  | last_updated
  | verification_type
deriving DecidableEq, Repr

/-- The tab-1 sort dispatch (app.py lines 362-388); tab 3 (lines 579-605)
repeats it verbatim. Name and creator sort case-insensitively; date columns
are first overwritten with their parsed values and then sorted with NaT
last; every other column (job type, verification type) takes the generic
`sort_values` branch on the raw string. -/
def sortJobs (col : SortCol) (asc : Bool) (l : List Record) : List Record :=
  match col with
  | .job_name => sortBy (cmpStrKey (fun r => r.job_name.toList.map Char.toLower) asc) l
  | .job_creator => sortBy (cmpStrKey (fun r => r.job_creator.toList.map Char.toLower) asc) l
  | .creation_date =>
    sortBy (cmpDateKey (fun r => toDatetime r.creation_date) asc)
      (l.map overwriteCreationDate)
  | .last_updated =>
    sortBy (cmpDateKey (fun r => toDatetime r.last_updated) asc)
      (l.map overwriteLastUpdated)
  | .job_type_edited => sortBy (cmpStrKey (fun r => r.job_type_edited.toList) asc) l
  | .verification_type => sortBy (cmpStrKey (fun r => r.verification_type.toList) asc) l

/-- Page count (app.py line 392):
`total_pages = (len(filtered_df) // page_size) + 1`, integer division.
The source fixes `page_size = 30`; the page size is kept as a parameter. -/
def total_pages (count pageSize : Nat) : Nat :=
  count / pageSize + 1

/-- The page-count formula as the spec words it:
`totalPages = max(1, ceil(count / pageSize))`. -/
def specTotalPages (count pageSize : Nat) : Nat :=
  max 1 ((count + pageSize - 1) / pageSize)

/-- The preferred job-type ordering (app.py lines 128-139). The source uses
it only to order the filter buttons (line 190), never for sorting. -/
def JOB_TYPE_ORDER : List String :=
  ["GP and Street", "Off Road", "Race", "Stunt Race", "Banger Race",
   "Deathmatch", "Last Team Standing", "King of the Hill", "Other", "Parkour"]

/-- The categorical rank the spec's `typeRank` assigns (spec section 4.1):
the index in the preferred ordering when present, otherwise a sentinel
greater than every valid index. Stated from the spec's words, to compare
the spec's intended job-type sort against the source's. -/
def specTypeRank (jobType : String) : Nat :=
  match JOB_TYPE_ORDER.findIdx? (· == jobType) with
  | some i => i
  | none => JOB_TYPE_ORDER.length

/-- The per-row predicate enforced by the player-count stage on the rows it
keeps, mirroring its `if`/`elif` priority. -/
def playerPred (sel : List String) (r : Record) : Bool :=
  if sel.isEmpty then true
  else if sel.contains "30 players" then r.max_players == "30"
  else if sel.contains "16-29 players" then
    match pyInt r.max_players with
    | some v => betweenInt v 16 29
    | none => false
  else if sel.contains "8-15 players" then
    match pyInt r.max_players with
    | some v => betweenInt v 8 15
    | none => false
  else true

/-- Conjunction of the per-row predicates of all five filter stages: the
rows of a successful `applyFilters` run are exactly the input rows
satisfying it. -/
def keepPred (F : FilterState) (r : Record) : Bool :=
  (F.selected_job_types.isEmpty || F.selected_job_types.contains r.job_type_edited) &&
  ((F.selected_verification_types.isEmpty ||
      F.selected_verification_types.contains r.verification_type) &&
    (yearPred F.selected_year_range r &&
      (playerPred F.selected_player_filters r &&
        (F.search_term.isEmpty || searchPred F.search_term r))))

/-- A well-formed sample row (all fields parseable), the base for the
concrete inputs used in witnesses and counterexamples. -/
def baseRow : Record :=
  { job_name := "Race Day"
  , job_creator := "Alice"
  , job_type := "Land Race"
  , job_type_edited := "Race"
  , verification_type := "Rockstar Verified"
  , max_players := "30"
  , creation_date := .txt "August 08, 2015"
  , last_updated := .txt "March 01, 2016"
  , job_description := some "a fun race"
  , creation_year := deriveYear "August 08, 2015" }

/-- Sample row whose max-players value lies in the 16-29 bucket. -/
def sampleMid : Record :=
  { baseRow with job_name := "Mid Race", max_players := "20" }

/-- Sample row whose description, but neither name nor creator, mentions
the search text "parkour". -/
def sampleDesc : Record :=
  { baseRow with job_name := "Alpha", job_creator := "Bob",
                 job_description := some "great parkour lines" }

/-- Sample row whose creation date does not parse, so its derived
`creation_year` is the missing-value marker `"<NA>"`. -/
def badDateRow : Record :=
  { baseRow with creation_date := .txt "N/A", creation_year := deriveYear "N/A" }

/-- Sample row whose max-players value fails integer parsing. -/
def samplePodium : Record :=
  { baseRow with job_name := "Podium Cruise", max_players := "Podium Vehicle" }

/-- Sample row of the job type ranked first in `JOB_TYPE_ORDER`. -/
def sampleGP : Record :=
  { baseRow with job_name := "Zeta", job_type_edited := "GP and Street" }

/-- Sample row of the job type ranked fifth in `JOB_TYPE_ORDER`. -/
def sampleBanger : Record :=
  { baseRow with job_name := "Alpha", job_type_edited := "Banger Race" }

/-- A concrete filter state exercising every stage. -/
def sampleFilter : FilterState :=
  { selected_job_types := ["Race"]
  , selected_verification_types := []
  , selected_year_range := (2015, 2016)
  , selected_player_filters := ["30 players"]
  , search_term := "race" }

theorem insertLe_perm (le : α → α → Bool) (a : α) (l : List α) :
    List.Perm (insertLe le a l) (a :: l) := by
  induction l with
  | nil => exact List.Perm.refl _
  | cons b bs ih =>
    unfold insertLe
    by_cases h : le a b = true
    · simp [h]
    · simp only [h, if_false]
      exact (ih.cons b).trans (List.Perm.swap a b bs)

theorem sortBy_perm (le : α → α → Bool) (l : List α) : List.Perm (sortBy le l) l := by
  induction l with
  | nil => exact List.Perm.refl _
  | cons a as ih => exact (insertLe_perm le a (sortBy le as)).trans (ih.cons a)

theorem mem_insertLe {le : α → α → Bool} {a x : α} {l : List α} :
    x ∈ insertLe le a l ↔ x = a ∨ x ∈ l := by
  rw [(insertLe_perm le a l).mem_iff, List.mem_cons]

theorem pairwise_insertLe (le : α → α → Bool)
    (htrans : ∀ a b c, le a b = true → le b c = true → le a c = true)
    (htot : ∀ a b, le a b = true ∨ le b a = true)
    (a : α) {l : List α} (h : l.Pairwise (fun x y => le x y = true)) :
    (insertLe le a l).Pairwise (fun x y => le x y = true) := by
  induction l with
  | nil => simp [insertLe]
  | cons b bs ih =>
    rw [List.pairwise_cons] at h
    unfold insertLe
    by_cases hab : le a b = true
    · simp only [hab, if_true]
      refine List.Pairwise.cons ?_ (List.Pairwise.cons h.1 h.2)
      intro x hx
      rcases List.mem_cons.1 hx with rfl | hx
      · exact hab
      · exact htrans a b x hab (h.1 x hx)
    · simp only [hab, if_false]
      refine List.Pairwise.cons ?_ (ih h.2)
      intro x hx
      rcases mem_insertLe.1 hx with rfl | hx
      · rcases htot x b with h' | h'
        · exact absurd h' hab
        · exact h'
      · exact h.1 x hx

theorem sortBy_pairwise (le : α → α → Bool)
    (htrans : ∀ a b c, le a b = true → le b c = true → le a c = true)
    (htot : ∀ a b, le a b = true ∨ le b a = true) (l : List α) :
    (sortBy le l).Pairwise (fun x y => le x y = true) := by
  induction l with
  | nil => exact List.Pairwise.nil
  | cons a as ih => exact pairwise_insertLe le htrans htot a ih

theorem bor_eq_true {a b : Bool} : (a || b) = true ↔ a = true ∨ b = true := by
  cases a <;> cases b <;> simp

theorem jobTypeStage_mem {sel : List String} {l : List Record} {r : Record}
    (h : r ∈ jobTypeStage sel l) :
    r ∈ l ∧ (sel.isEmpty || sel.contains r.job_type_edited) = true := by
  unfold jobTypeStage at h
  by_cases hs : sel.isEmpty = true
  · rw [if_pos hs] at h
    exact ⟨h, bor_eq_true.2 (Or.inl hs)⟩
  · rw [if_neg hs] at h
    rcases List.mem_filter.1 h with ⟨h1, h2⟩
    exact ⟨h1, bor_eq_true.2 (Or.inr h2)⟩

theorem jobTypeStage_fix {sel : List String} {l : List Record}
    (h : ∀ r ∈ l, (sel.isEmpty || sel.contains r.job_type_edited) = true) :
    jobTypeStage sel l = l := by
  unfold jobTypeStage
  by_cases hs : sel.isEmpty = true
  · rw [if_pos hs]
  · rw [if_neg hs]
    refine List.filter_eq_self.2 (fun r hr => ?_)
    rcases bor_eq_true.1 (h r hr) with h1 | h1
    · exact absurd h1 hs
    · exact h1

theorem verificationStage_mem {sel : List String} {l : List Record} {r : Record}
    (h : r ∈ verificationStage sel l) :
    r ∈ l ∧ (sel.isEmpty || sel.contains r.verification_type) = true := by
  unfold verificationStage at h
  by_cases hs : sel.isEmpty = true
  · rw [if_pos hs] at h
    exact ⟨h, bor_eq_true.2 (Or.inl hs)⟩
  · rw [if_neg hs] at h
    rcases List.mem_filter.1 h with ⟨h1, h2⟩
    exact ⟨h1, bor_eq_true.2 (Or.inr h2)⟩

theorem verificationStage_fix {sel : List String} {l : List Record}
    (h : ∀ r ∈ l, (sel.isEmpty || sel.contains r.verification_type) = true) :
    verificationStage sel l = l := by
  unfold verificationStage
  by_cases hs : sel.isEmpty = true
  · rw [if_pos hs]
  · rw [if_neg hs]
    refine List.filter_eq_self.2 (fun r hr => ?_)
    rcases bor_eq_true.1 (h r hr) with h1 | h1
    · exact absurd h1 hs
    · exact h1

theorem yearPred_isSome {range : Int × Int} {r : Record}
    (h : yearPred range r = true) : (pyInt r.creation_year).isSome = true := by
  unfold yearPred at h
  cases hv : pyInt r.creation_year with
  | none => rw [hv] at h; exact absurd h (by simp)
  | some v => simp [hv]

theorem yearStage_ok_mem {range : Int × Int} {l m : List Record} {r : Record}
    (h : yearStage range l = .ok m) (hr : r ∈ m) :
    r ∈ l ∧ yearPred range r = true := by
  unfold yearStage at h
  by_cases hall : l.all (fun r => (pyInt r.creation_year).isSome) = true
  · rw [if_pos hall] at h
    injection h with h
    subst h
    exact List.mem_filter.1 hr
  · rw [if_neg hall] at h
    exact Except.noConfusion h

theorem yearStage_fix {range : Int × Int} {l : List Record}
    (h : ∀ r ∈ l, yearPred range r = true) :
    yearStage range l = .ok l := by
  unfold yearStage
  have hall : l.all (fun r => (pyInt r.creation_year).isSome) = true :=
    List.all_eq_true.2 (fun r hr => yearPred_isSome (h r hr))
  rw [if_pos hall, List.filter_eq_self.2 h]

theorem intRangeFilter_ok_mem {lo hi : Int} {l m : List Record} {r : Record}
    (h : intRangeFilter lo hi l = .ok m) (hr : r ∈ m) :
    r ∈ l ∧ (match pyInt r.max_players with
             | some v => betweenInt v lo hi
             | none => false) = true := by
  unfold intRangeFilter at h
  by_cases hall : l.all (fun r => (pyInt r.max_players).isSome) = true
  · rw [if_pos hall] at h
    injection h with h
    subst h
    exact List.mem_filter.1 hr
  · rw [if_neg hall] at h
    exact Except.noConfusion h

theorem intRangeFilter_fix {lo hi : Int} {l : List Record}
    (h : ∀ r ∈ l, (match pyInt r.max_players with
                   | some v => betweenInt v lo hi
                   | none => false) = true) :
    intRangeFilter lo hi l = .ok l := by
  unfold intRangeFilter
  have hall : l.all (fun r => (pyInt r.max_players).isSome) = true := by
    refine List.all_eq_true.2 (fun r hr => ?_)
    have h1 := h r hr
    cases hv : pyInt r.max_players with
    | none => rw [hv] at h1; exact absurd h1 (by simp)
    | some v => simp [hv]
  rw [if_pos hall, List.filter_eq_self.2 h]

theorem playerStage_ok_mem {sel : List String} {l m : List Record} {r : Record}
    (h : playerStage sel l = .ok m) (hr : r ∈ m) :
    r ∈ l ∧ playerPred sel r = true := by
  unfold playerStage at h
  unfold playerPred
  by_cases h0 : sel.isEmpty = true
  · rw [if_pos h0] at h
    rw [if_pos h0]
    injection h with h
    subst h
    exact ⟨hr, rfl⟩
  · rw [if_neg h0] at h
    rw [if_neg h0]
    by_cases h30 : sel.contains "30 players" = true
    · rw [if_pos h30] at h
      rw [if_pos h30]
      injection h with h
      subst h
      exact List.mem_filter.1 hr
    · rw [if_neg h30] at h
      rw [if_neg h30]
      by_cases h16 : sel.contains "16-29 players" = true
      · rw [if_pos h16] at h
        rw [if_pos h16]
        exact intRangeFilter_ok_mem h hr
      · rw [if_neg h16] at h
        rw [if_neg h16]
        by_cases h8 : sel.contains "8-15 players" = true
        · rw [if_pos h8] at h
          rw [if_pos h8]
          exact intRangeFilter_ok_mem h hr
        · rw [if_neg h8] at h
          rw [if_neg h8]
          injection h with h
          subst h
          exact ⟨hr, rfl⟩

theorem playerStage_fix {sel : List String} {l : List Record}
    (h : ∀ r ∈ l, playerPred sel r = true) :
    playerStage sel l = .ok l := by
  unfold playerStage
  unfold playerPred at h
  by_cases h0 : sel.isEmpty = true
  · rw [if_pos h0]
  · rw [if_neg h0]
    by_cases h30 : sel.contains "30 players" = true
    · rw [if_pos h30]
      have h1 : ∀ r ∈ l, (r.max_players == "30") = true := by
        intro r hr
        have := h r hr
        rwa [if_neg h0, if_pos h30] at this
      rw [List.filter_eq_self.2 h1]
    · rw [if_neg h30]
      by_cases h16 : sel.contains "16-29 players" = true
      · rw [if_pos h16]
        refine intRangeFilter_fix (fun r hr => ?_)
        have := h r hr
        rwa [if_neg h0, if_neg h30, if_pos h16] at this
      · rw [if_neg h16]
        by_cases h8 : sel.contains "8-15 players" = true
        · rw [if_pos h8]
          refine intRangeFilter_fix (fun r hr => ?_)
          have := h r hr
          rwa [if_neg h0, if_neg h30, if_neg h16, if_pos h8] at this
        · rw [if_neg h8]

theorem searchStage_mem {term : String} {l : List Record} {r : Record}
    (h : r ∈ searchStage term l) :
    r ∈ l ∧ (term.isEmpty || searchPred term r) = true := by
  unfold searchStage at h
  by_cases hs : term.isEmpty = true
  · rw [if_pos hs] at h
    exact ⟨h, bor_eq_true.2 (Or.inl hs)⟩
  · rw [if_neg hs] at h
    rcases List.mem_filter.1 h with ⟨h1, h2⟩
    exact ⟨h1, bor_eq_true.2 (Or.inr h2)⟩

theorem searchStage_fix {term : String} {l : List Record}
    (h : ∀ r ∈ l, (term.isEmpty || searchPred term r) = true) :
    searchStage term l = l := by
  unfold searchStage
  by_cases hs : term.isEmpty = true
  · rw [if_pos hs]
  · rw [if_neg hs]
    refine List.filter_eq_self.2 (fun r hr => ?_)
    rcases bor_eq_true.1 (h r hr) with h1 | h1
    · exact absurd h1 hs
    · exact h1

theorem applyFilters_ok_mem {F : FilterState} {l S : List Record}
    (h : applyFilters F l = .ok S) :
    ∀ r ∈ S, r ∈ l ∧ keepPred F r = true := by
  intro r hr
  unfold applyFilters at h
  split at h
  next e hy => exact Except.noConfusion h
  next l3 hy =>
    split at h
    next e hp => exact Except.noConfusion h
    next l4 hp =>
      injection h with h
      subst h
      rcases searchStage_mem hr with ⟨hr4, hsearch⟩
      rcases playerStage_ok_mem hp hr4 with ⟨hr3, hplayer⟩
      rcases yearStage_ok_mem hy hr3 with ⟨hr2, hyear⟩
      rcases verificationStage_mem hr2 with ⟨hr1, hverif⟩
      rcases jobTypeStage_mem hr1 with ⟨hrl, hjob⟩
      refine ⟨hrl, ?_⟩
      unfold keepPred
      rw [hjob, hverif, hyear, hplayer, hsearch]
      rfl

theorem applyFilters_fix {F : FilterState} {l : List Record}
    (h : ∀ r ∈ l, keepPred F r = true) :
    applyFilters F l = .ok l := by
  have hparts : ∀ r ∈ l,
      (F.selected_job_types.isEmpty ||
        F.selected_job_types.contains r.job_type_edited) = true ∧
      (F.selected_verification_types.isEmpty ||
        F.selected_verification_types.contains r.verification_type) = true ∧
      yearPred F.selected_year_range r = true ∧
      playerPred F.selected_player_filters r = true ∧
      (F.search_term.isEmpty || searchPred F.search_term r) = true := by
    intro r hr
    have h1 := h r hr
    unfold keepPred at h1
    simp only [Bool.and_eq_true] at h1
    exact ⟨h1.1, h1.2.1, h1.2.2.1, h1.2.2.2.1, h1.2.2.2.2⟩
  simp only [applyFilters,
    jobTypeStage_fix (fun r hr => (hparts r hr).1),
    verificationStage_fix (fun r hr => (hparts r hr).2.1),
    yearStage_fix (fun r hr => (hparts r hr).2.2.1),
    playerStage_fix (fun r hr => (hparts r hr).2.2.2.1),
    searchStage_fix (fun r hr => (hparts r hr).2.2.2.2)]

theorem succ_floor_div_eq_ceil {c p : Nat} (hp : 0 < p) (h : c % p ≠ 0) :
    (c + p - 1) / p = c / p + 1 := by
  have h1 : c + p - 1 = c + (p - 1) := by omega
  rw [h1, Nat.add_div hp]
  have h2 : (p - 1) / p = 0 := Nat.div_eq_of_lt (by omega)
  have h3 : (p - 1) % p = p - 1 := Nat.mod_eq_of_lt (by omega)
  rw [h2, h3, if_pos (by omega : p ≤ c % p + (p - 1))]

theorem contains_ne_empty {sel : List String} {x : String}
    (h : sel.contains x = true) : ¬ sel.isEmpty = true := by
  cases sel with
  | nil => exact Bool.noConfusion h
  | cons a as => simp

theorem playerStage_sel30 {sel : List String} (l : List Record)
    (h : sel.contains "30 players" = true) :
    playerStage sel l = .ok (l.filter (fun r => r.max_players == "30")) := by
  unfold playerStage
  rw [if_neg (contains_ne_empty h), if_pos h]

theorem playerStage_sel16 {sel : List String} (l : List Record)
    (h30 : sel.contains "30 players" = false)
    (h16 : sel.contains "16-29 players" = true) :
    playerStage sel l = intRangeFilter 16 29 l := by
  unfold playerStage
  rw [if_neg (contains_ne_empty h16), if_neg (by rw [h30]; simp), if_pos h16]

theorem playerStage_sel8 {sel : List String} (l : List Record)
    (h30 : sel.contains "30 players" = false)
    (h16 : sel.contains "16-29 players" = false)
    (h8 : sel.contains "8-15 players" = true) :
    playerStage sel l = intRangeFilter 8 15 l := by
  unfold playerStage
  rw [if_neg (contains_ne_empty h8), if_neg (by rw [h30]; simp),
      if_neg (by rw [h16]; simp), if_pos h8]

theorem intRangeFilter_error {lo hi : Int} {l : List Record} {r : Record}
    (hmem : r ∈ l) (hbad : pyInt r.max_players = none) :
    intRangeFilter lo hi l
      = .error "ValueError: invalid literal for int() with base 10" := by
  unfold intRangeFilter
  have hne : ¬ l.all (fun r => (pyInt r.max_players).isSome) = true := by
    intro hall
    have h1 := List.all_eq_true.1 hall r hmem
    rw [hbad] at h1
    exact Bool.noConfusion h1
  rw [if_neg hne]

theorem lexLe_total : ∀ a b : List Char, lexLe a b = true ∨ lexLe b a = true := by
  intro a
  induction a with
  | nil => intro b; left; rfl
  | cons x xs ih =>
    intro b
    cases b with
    | nil => right; rfl
    | cons y ys =>
      simp only [lexLe]
      by_cases hxy : x.toNat < y.toNat
      · left; rw [if_pos hxy]
      · by_cases hyx : y.toNat < x.toNat
        · right; rw [if_pos hyx]
        · rcases ih ys with h | h
          · left; rw [if_neg hxy, if_neg hyx]; exact h
          · right; rw [if_neg hyx, if_neg hxy]; exact h

theorem lexLe_trans : ∀ a b c : List Char,
    lexLe a b = true → lexLe b c = true → lexLe a c = true := by
  intro a
  induction a with
  | nil => intro b c _ _; rfl
  | cons x xs ih =>
    intro b c h1 h2
    cases b with
    | nil => simp [lexLe] at h1
    | cons y ys =>
      cases c with
      | nil => simp [lexLe] at h2
      | cons z zs =>
        simp only [lexLe] at h1 h2 ⊢
        rcases Nat.lt_trichotomy x.toNat y.toNat with hxy | hxy | hxy
        · rcases Nat.lt_trichotomy y.toNat z.toNat with hyz | hyz | hyz
          · rw [if_pos (by omega)]
          · rw [if_pos (by omega)]
          · rw [if_neg (by omega), if_pos hyz] at h2
            exact Bool.noConfusion h2
        · rw [if_neg (by omega), if_neg (by omega)] at h1
          rcases Nat.lt_trichotomy y.toNat z.toNat with hyz | hyz | hyz
          · rw [if_pos (by omega)]
          · rw [if_neg (by omega), if_neg (by omega)] at h2
            rw [if_neg (by omega), if_neg (by omega)]
            exact ih ys zs h1 h2
          · rw [if_neg (by omega), if_pos hyz] at h2
            exact Bool.noConfusion h2
        · rw [if_neg (by omega), if_pos hxy] at h1
          exact Bool.noConfusion h1

theorem cmpStrKey_trans (key : Record → List Char) (asc : Bool) :
    ∀ a b c, cmpStrKey key asc a b = true → cmpStrKey key asc b c = true →
      cmpStrKey key asc a c = true := by
  intro a b c h1 h2
  unfold cmpStrKey at h1 h2 ⊢
  cases asc
  · exact lexLe_trans _ _ _ h2 h1
  · exact lexLe_trans _ _ _ h1 h2

theorem cmpStrKey_total (key : Record → List Char) (asc : Bool) :
    ∀ a b, cmpStrKey key asc a b = true ∨ cmpStrKey key asc b a = true := by
  intro a b
  unfold cmpStrKey
  cases asc
  · exact lexLe_total (key b) (key a)
  · exact lexLe_total (key a) (key b)

theorem cmpDateKey_trans (key : Record → Option Nat) (asc : Bool) :
    ∀ a b c, cmpDateKey key asc a b = true → cmpDateKey key asc b c = true →
      cmpDateKey key asc a c = true := by
  intro a b c h1 h2
  unfold cmpDateKey at h1 h2 ⊢
  cases hka : key a with
  | none =>
    cases hkb : key b with
    | none =>
      cases hkc : key c with
      | none => rfl
      | some z => rw [hkb, hkc] at h2; exact Bool.noConfusion h2
    | some y => rw [hka, hkb] at h1; exact Bool.noConfusion h1
  | some x =>
    cases hkc : key c with
    | none => rfl
    | some z =>
      cases hkb : key b with
      | none => rw [hkb, hkc] at h2; exact Bool.noConfusion h2
      | some y =>
        rw [hka, hkb] at h1
        rw [hkb, hkc] at h2
        cases asc
        · exact decide_eq_true (le_trans (of_decide_eq_true h2) (of_decide_eq_true h1))
        · exact decide_eq_true (le_trans (of_decide_eq_true h1) (of_decide_eq_true h2))

theorem cmpDateKey_total (key : Record → Option Nat) (asc : Bool) :
    ∀ a b, cmpDateKey key asc a b = true ∨ cmpDateKey key asc b a = true := by
  intro a b
  unfold cmpDateKey
  cases hka : key a with
  | none =>
    cases hkb : key b with
    | none => left; rfl
    | some y => right; rfl
  | some x =>
    cases hkb : key b with
    | none => left; rfl
    | some y =>
      cases asc
      · rcases Nat.le_total y x with h | h
        · left; exact decide_eq_true h
        · right; exact decide_eq_true h
      · rcases Nat.le_total x y with h | h
        · left; exact decide_eq_true h
        · right; exact decide_eq_true h

theorem cmpDateKey_none_of_none {key : Record → Option Nat} {asc : Bool}
    {a b : Record} (hab : cmpDateKey key asc a b = true) (ha : key a = none) :
    key b = none := by
  unfold cmpDateKey at hab
  rw [ha] at hab
  cases hkb : key b with
  | none => rfl
  | some y => rw [hkb] at hab; exact Bool.noConfusion hab

theorem cmpDateKey_le_of_some {key : Record → Option Nat} {asc : Bool}
    {a b : Record} {x y : Nat} (hab : cmpDateKey key asc a b = true)
    (hx : key a = some x) (hy : key b = some y) :
    if asc = true then x ≤ y else y ≤ x := by
  unfold cmpDateKey at hab
  rw [hx, hy] at hab
  cases asc
  · exact of_decide_eq_true hab
  · exact of_decide_eq_true hab

/-- C1 (counterexample): with 30 records and page size 30 — a positive
exact multiple — the code reports 2 pages while the spec formula
`max(1, ceil(count / pageSize))` gives 1. -/
theorem total_pages_claim_false :
    total_pages 30 30 = 2 ∧ specTotalPages 30 30 = 1 := by decide

/-- C1 (amended): the paginator computes `totalPages = count // pageSize + 1`:
this equals the spec's `max(1, ceil(count / pageSize))` whenever `count` is
not an exact multiple of `pageSize`, is one greater on positive exact
multiples, and the empty subset still yields exactly one page. -/
theorem total_pages_floor_plus_one (count pageSize : Nat) (hp : 0 < pageSize) :
    total_pages count pageSize =
      (if count % pageSize = 0 then count / pageSize + 1
       else specTotalPages count pageSize)
    ∧ total_pages 0 pageSize = 1 := by
  constructor
  · by_cases hm : count % pageSize = 0
    · rw [if_pos hm]; rfl
    · rw [if_neg hm]
      unfold total_pages specTotalPages
      rw [succ_floor_div_eq_ceil hp hm]
      exact (Nat.max_eq_right (Nat.succ_le_succ (Nat.zero_le _))).symm
  · show 0 / pageSize + 1 = 1
    rw [Nat.zero_div]

theorem total_pages_floor_plus_one_witness :
    total_pages 31 30 =
      (if 31 % 30 = 0 then 31 / 30 + 1 else specTotalPages 31 30)
    ∧ total_pages 0 30 = 1 :=
  total_pages_floor_plus_one 31 30 (by decide)

/-- C2 (counterexample): with both "30 players" and "16-29 players"
selected, a row whose max-players value 20 lies inside the selected 16-29
bucket is dropped — only the "30 players" branch of the `elif` chain runs,
so the buckets are not evaluated as a disjunction. -/
theorem playerStage_not_disjunctive :
    playerStage ["30 players", "16-29 players"] [sampleMid] = .ok []
    ∧ pyInt sampleMid.max_players = some 20
    ∧ betweenInt 20 16 29 = true := by decide

/-- C2 (amended): selected buckets are mutually exclusive, applied in the
fixed priority "30 players" > "16-29 players" > "8-15 players": only the
highest-priority selected bucket filters the rows, and the "30 players"
branch compares the raw string against "30" rather than a parsed integer. -/
theorem playerStage_priority (sel : List String) (l : List Record) :
    (sel.contains "30 players" = true →
      playerStage sel l = .ok (l.filter (fun r => r.max_players == "30")))
    ∧ (sel.contains "30 players" = false →
        sel.contains "16-29 players" = true →
      playerStage sel l = intRangeFilter 16 29 l)
    ∧ (sel.contains "30 players" = false →
        sel.contains "16-29 players" = false →
        sel.contains "8-15 players" = true →
      playerStage sel l = intRangeFilter 8 15 l) :=
  ⟨fun h => playerStage_sel30 l h,
   fun h30 h16 => playerStage_sel16 l h30 h16,
   fun h30 h16 h8 => playerStage_sel8 l h30 h16 h8⟩

theorem playerStage_priority_witness :
    playerStage ["30 players", "16-29 players"] [sampleMid]
      = .ok ([sampleMid].filter (fun r => r.max_players == "30")) :=
  (playerStage_priority ["30 players", "16-29 players"] [sampleMid]).1 (by decide)

/-- C3 (counterexample): a row matching the search text only in its
description is dropped — the search filter never consults the description
column, contradicting the claimed name OR creator OR description match. -/
theorem searchStage_drops_description_match :
    regexFree "parkour" = true
    ∧ searchStage "parkour" [sampleDesc] = []
    ∧ sampleDesc.job_description = some "great parkour lines"
    ∧ containsCI "parkour" "great parkour lines" = true := by decide

/-- C3 (amended): for a non-empty search text free of regex metacharacters
(the class on which `str.contains` with its default `regex=True` matches the
text literally and cannot raise `re.error`), the filter keeps exactly the
rows where the lower-cased text occurs in the lower-cased name OR in the
lower-cased creator — the description is never consulted; an empty search
text keeps every row unchanged. Texts containing regex metacharacters are
interpreted by the program as regular expressions and are outside this
statement. -/
theorem searchStage_name_creator (term : String) (l : List Record) (r : Record)
    (hre : regexFree term = true) (h : term.isEmpty = false) :
    searchStage "" l = l
    ∧ (r ∈ searchStage term l ↔
        r ∈ l ∧ (containsCI term r.job_name = true
                  ∨ containsCI term r.job_creator = true)) := by
  constructor
  · rfl
  · unfold searchStage
    rw [if_neg (by rw [h]; simp), List.mem_filter]
    unfold searchPred
    rw [bor_eq_true]

theorem searchStage_name_creator_witness :
    searchStage "" [baseRow] = [baseRow]
    ∧ (baseRow ∈ searchStage "race" [baseRow] ↔
        baseRow ∈ [baseRow] ∧ (containsCI "race" baseRow.job_name = true
                  ∨ containsCI "race" baseRow.job_creator = true)) :=
  searchStage_name_creator "race" [baseRow] baseRow (by decide) (by decide)

/-- C4: a row whose creation date does not parse derives
`creation_year = "<NA>"` (the intent of `errors=coerce` at load time being
graceful absence), but the year-range stage then raises a `ValueError` from
`astype(int)` on that marker instead of silently excluding the row. -/
theorem yearStage_raises_on_absent_year :
    deriveYear "N/A" = "<NA>"
    ∧ badDateRow.creation_year = "<NA>"
    ∧ yearStage (2015, 2020) [badDateRow]
        = .error "ValueError: invalid literal for int() with base 10" := by decide

/-- C6 (counterexample): sorting by job type ascending puts "Banger Race"
(categorical rank 4) before "GP and Street" (categorical rank 0): the code
orders by the raw string in the generic branch, not by the preferred-order
rank, and applies no name tiebreak. -/
theorem sortJobs_jobType_not_rank :
    sortJobs .job_type_edited true [sampleGP, sampleBanger]
      = [sampleBanger, sampleGP]
    ∧ specTypeRank sampleGP.job_type_edited = 0
    ∧ specTypeRank sampleBanger.job_type_edited = 4 := by decide

/-- C6 (amended): sorting by the job-type field runs the generic branch of
the sort dispatch: the output is a permutation of the input ordered by
plain code-point comparison of the raw `job_type_edited` string — no
categorical rank, no name tiebreak — in the chosen direction. -/
theorem sortJobs_jobType_lex (asc : Bool) (l : List Record) :
    List.Perm (sortJobs .job_type_edited asc l) l
    ∧ (sortJobs .job_type_edited true l).Pairwise
        (fun a b => lexLe a.job_type_edited.toList b.job_type_edited.toList = true)
    ∧ (sortJobs .job_type_edited false l).Pairwise
        (fun a b => lexLe b.job_type_edited.toList a.job_type_edited.toList = true) := by
  refine ⟨sortBy_perm _ l, ?_, ?_⟩
  · exact sortBy_pairwise (cmpStrKey (fun r => r.job_type_edited.toList) true)
      (cmpStrKey_trans _ _) (cmpStrKey_total _ _) l
  · exact sortBy_pairwise (cmpStrKey (fun r => r.job_type_edited.toList) false)
      (cmpStrKey_trans _ _) (cmpStrKey_total _ _) l

/-- C7 (counterexample): with the "16-29 players" bucket selected, a row
whose max-players value fails integer parsing makes the whole filter raise
a `ValueError` instead of merely not matching. -/
theorem playerStage_raises_on_unparseable :
    pyInt samplePodium.max_players = none
    ∧ playerStage ["16-29 players"] [samplePodium]
        = .error "ValueError: invalid literal for int() with base 10" := by decide

/-- C7 (amended): on a row whose max-players value fails integer parsing,
the bucket filter avoids an error only when the "30 players" branch applies
(the row is then excluded, by raw-string comparison); when a numeric-range
branch applies, the stage raises a `ValueError` for the whole record set. -/
theorem playerStage_unparseable (sel : List String) (l : List Record) (r : Record)
    (hmem : r ∈ l) (hbad : pyInt r.max_players = none) :
    (sel.contains "30 players" = true →
      playerStage sel l = .ok (l.filter (fun x => x.max_players == "30"))
      ∧ r ∉ l.filter (fun x => x.max_players == "30"))
    ∧ (sel.contains "30 players" = false →
        sel.contains "16-29 players" = true →
      playerStage sel l = .error "ValueError: invalid literal for int() with base 10")
    ∧ (sel.contains "30 players" = false →
        sel.contains "16-29 players" = false →
        sel.contains "8-15 players" = true →
      playerStage sel l = .error "ValueError: invalid literal for int() with base 10") := by
  refine ⟨fun h => ⟨playerStage_sel30 l h, ?_⟩,
          fun h30 h16 => (playerStage_sel16 l h30 h16).trans
            (intRangeFilter_error hmem hbad),
          fun h30 h16 h8 => (playerStage_sel8 l h30 h16 h8).trans
            (intRangeFilter_error hmem hbad)⟩
  intro hr
  have h1 := (List.mem_filter.1 hr).2
  have h2 : r.max_players = "30" := eq_of_beq h1
  rw [h2] at hbad
  have h3 : pyInt "30" = some 30 := by decide
  rw [h3] at hbad
  exact Option.noConfusion hbad

theorem playerStage_unparseable_witness :
    ((["16-29 players"] : List String).contains "30 players" = true →
      playerStage ["16-29 players"] [samplePodium]
        = .ok ([samplePodium].filter (fun x => x.max_players == "30"))
      ∧ samplePodium ∉ [samplePodium].filter (fun x => x.max_players == "30"))
    ∧ ((["16-29 players"] : List String).contains "30 players" = false →
        (["16-29 players"] : List String).contains "16-29 players" = true →
      playerStage ["16-29 players"] [samplePodium]
        = .error "ValueError: invalid literal for int() with base 10")
    ∧ ((["16-29 players"] : List String).contains "30 players" = false →
        (["16-29 players"] : List String).contains "16-29 players" = false →
        (["16-29 players"] : List String).contains "8-15 players" = true →
      playerStage ["16-29 players"] [samplePodium]
        = .error "ValueError: invalid literal for int() with base 10") :=
  playerStage_unparseable ["16-29 players"] [samplePodium] samplePodium
    (by decide) (by decide)

/-- C8: in both directions, a date sort places every row whose date failed
to parse after all rows with a parsed date, and orders the parsed dates by
the chosen direction; this holds for both date columns. -/
theorem sortJobs_dates_absent_last (asc : Bool) (l : List Record) :
    ((sortJobs .creation_date asc l).Pairwise (fun a b =>
      (toDatetime a.creation_date = none → toDatetime b.creation_date = none)
      ∧ (∀ x y, toDatetime a.creation_date = some x →
          toDatetime b.creation_date = some y →
          (if asc = true then x ≤ y else y ≤ x))))
    ∧ ((sortJobs .last_updated asc l).Pairwise (fun a b =>
      (toDatetime a.last_updated = none → toDatetime b.last_updated = none)
      ∧ (∀ x y, toDatetime a.last_updated = some x →
          toDatetime b.last_updated = some y →
          (if asc = true then x ≤ y else y ≤ x)))) := by
  constructor
  · have h := sortBy_pairwise (cmpDateKey (fun r => toDatetime r.creation_date) asc)
      (cmpDateKey_trans _ _) (cmpDateKey_total _ _) (l.map overwriteCreationDate)
    refine h.imp ?_
    intro a b hab
    exact ⟨fun ha => cmpDateKey_none_of_none hab ha,
           fun x y hx hy => cmpDateKey_le_of_some hab hx hy⟩
  · have h := sortBy_pairwise (cmpDateKey (fun r => toDatetime r.last_updated) asc)
      (cmpDateKey_trans _ _) (cmpDateKey_total _ _) (l.map overwriteLastUpdated)
    refine h.imp ?_
    intro a b hab
    exact ⟨fun ha => cmpDateKey_none_of_none hab ha,
           fun x y hx hy => cmpDateKey_le_of_some hab hx hy⟩

/-- C9: the filter engine is idempotent — whenever the full filter
application succeeds on a record set, reapplying the same filter state to
its own output succeeds and returns that output unchanged. -/
theorem applyFilters_idem (F : FilterState) (l S : List Record)
    (h : applyFilters F l = .ok S) : applyFilters F S = .ok S :=
  applyFilters_fix (fun r hr => (applyFilters_ok_mem h r hr).2)

theorem applyFilters_idem_witness :
    applyFilters sampleFilter [baseRow] = .ok [baseRow] :=
  applyFilters_idem sampleFilter [baseRow, sampleMid] [baseRow] (by decide)

/-- C10: a date sort returns the input rows with the sorted date column
overwritten by its parsed value (the absent marker when parsing fails)
while every other field of every row is unchanged; both date columns
behave alike. -/
theorem sortJobs_dates_overwrite (asc : Bool) (l : List Record) :
    List.Perm (sortJobs .creation_date asc l) (l.map overwriteCreationDate)
    ∧ (∀ r ∈ sortJobs .creation_date asc l, ∃ s ∈ l,
        r.creation_date = .dt (toDatetime s.creation_date)
        ∧ r.job_name = s.job_name ∧ r.job_creator = s.job_creator
        ∧ r.job_type = s.job_type ∧ r.job_type_edited = s.job_type_edited
        ∧ r.verification_type = s.verification_type
        ∧ r.max_players = s.max_players ∧ r.last_updated = s.last_updated
        ∧ r.job_description = s.job_description
        ∧ r.creation_year = s.creation_year)
    ∧ List.Perm (sortJobs .last_updated asc l) (l.map overwriteLastUpdated)
    ∧ (∀ r ∈ sortJobs .last_updated asc l, ∃ s ∈ l,
        r.last_updated = .dt (toDatetime s.last_updated)
        ∧ r.job_name = s.job_name ∧ r.job_creator = s.job_creator
        ∧ r.job_type = s.job_type ∧ r.job_type_edited = s.job_type_edited
        ∧ r.verification_type = s.verification_type
        ∧ r.max_players = s.max_players ∧ r.creation_date = s.creation_date
        ∧ r.job_description = s.job_description
        ∧ r.creation_year = s.creation_year) := by
  refine ⟨sortBy_perm _ _, ?_, sortBy_perm _ _, ?_⟩
  · intro r hr
    have hmem : r ∈ l.map overwriteCreationDate :=
      ((sortBy_perm _ _).mem_iff).1 hr
    rcases List.mem_map.1 hmem with ⟨s, hs, rfl⟩
    exact ⟨s, hs, rfl, rfl, rfl, rfl, rfl, rfl, rfl, rfl, rfl, rfl⟩
  · intro r hr
    have hmem : r ∈ l.map overwriteLastUpdated :=
      ((sortBy_perm _ _).mem_iff).1 hr
    rcases List.mem_map.1 hmem with ⟨s, hs, rfl⟩
    exact ⟨s, hs, rfl, rfl, rfl, rfl, rfl, rfl, rfl, rfl, rfl, rfl⟩

end GCCC
